import Mathlib

/-!
Verification development for the sosw-dynamodb codec
(src/converters.py, src/helpers.py).

The repository converts between the DynamoDB tagged-union wire format
(each value wrapped as a single-entry dict from a type tag to a payload,
e.g. {'N': '3'}) and a plain native mapping.  Python dictionaries are
embedded as association lists; Python `None` is the constructor
`Native.none`; Python exceptions are the `Except Err` monad.  The two
external collaborators — `json.loads` and the vendor scalar
(de)serializer from boto3 — are parameters of the embedded functions,
with concrete model instantiations given below for closed statements.
-/

namespace SoswDynamo

/-- Errors of the embedded Python code: each constructor names the Python
exception class that the corresponding code path raises. -/
inductive Err where
  | typeError
  | valueError
  | attributeError
  | exception
deriving DecidableEq, Repr

/-- Native (application-side) values: the Python values that
`dynamo_to_dict` produces and `dict_to_dynamo` consumes.  Python `None`
is `Native.none`; a Python float is carried as its decimal literal
(the claims never compare two distinct literals of one float). -/
inductive Native where
  | none
  | bool (b : Bool)
  | int (n : Int)
  | float (lit : String)
  | str (s : String)
  | dict (d : List (String × Native))

/-- Wire payloads: the value stored under a type tag in a DynamoDB
tagged value — a string (tags N, S), a boolean (tags BOOL, NULL), or a
nested wire record (tag M). -/
inductive Payload where
  | str (s : String)
  | bool (b : Bool)
  | rcd (r : List (String × List (String × Payload)))

/-- A tagged wire value, e.g. {'N': '3'}: a Python dict from tag to payload. -/
abbrev TagVal := List (String × Payload)

/-- A wire record (a DynamoDB row): a Python dict from field name to tagged value. -/
abbrev WireRow := List (String × TagVal)

/-- A native record: a Python dict from field name to native value. -/
abbrev NRec := List (String × Native)

/-- A row mapper (schema): a Python dict from field name to declared type tag. -/
abbrev Schema := List (String × String)

/-- Python `d.get(key)`: lookup in a dict, `None` (here `Option.none`) when absent. -/
def dict_get {α : Type} : List (String × α) → String → Option α
  | [], _ => Option.none
  | (k, v) :: rest, key => if k = key then some v else dict_get rest key

/-- Python `d[key] = v`: overwrite the entry in place when the key exists,
append otherwise (insertion-order semantics of Python dicts). -/
def dict_insert {α : Type} : List (String × α) → String → α → List (String × α)
  | [], key, v => [(key, v)]
  | (k, w) :: rest, key, v =>
      if k = key then (key, v) :: rest else (k, w) :: dict_insert rest key v

/-- Models the Python builtin `int()` on optionally-signed decimal digit
strings; every other input raises ValueError.  (Python also accepts
surrounding whitespace, underscores and a leading plus sign; the claims
only exercise plain digit strings, which both semantics parse alike.) -/
def digits_to_nat (l : List Char) : Nat :=
  l.foldl (fun a c => a * 10 + (c.toNat - 48)) 0

def python_int (s : String) : Except Err Int :=
  match s.data with
  | [] => .error .valueError
  | c :: cs =>
      if c = Char.ofNat 45 then
        if !cs.isEmpty && cs.all Char.isDigit then .ok (-(Int.ofNat (digits_to_nat cs)))
        else .error .valueError
      else if (c :: cs).all Char.isDigit then .ok (Int.ofNat (digits_to_nat (c :: cs)))
      else .error .valueError

/-- Whether a string is an optionally-signed decimal literal with exactly
one point, e.g. "1.5", "-0.25", "7.". -/
def is_float_lit (s : String) : Bool :=
  let t := match s.data with
    | c :: cs => if c = Char.ofNat 45 then cs else c :: cs
    | [] => []
  t.count (Char.ofNat 46) == 1 && t != [Char.ofNat 46] &&
    t.all (fun c => c.isDigit || c == Char.ofNat 46)

/-- Models the Python builtin `float()` on plain decimal literals; every
other input raises ValueError.  Python returns an IEEE double; the model
carries the accepted literal itself (exponent/inf/nan forms are outside
the modelled domain — the claims never use them). -/
def python_float (s : String) : Except Err Native :=
  if is_float_lit s then .ok (.float s) else .error .valueError

/-- Models the Python builtin `str()` on the native values the encoder
stringifies.  For a float the literal is returned (Python would print the
repr of the double, which agrees on canonical literals). -/
def python_str : Native → String
  | .none => "None"
  | .bool b => if b then "True" else "False"
  | .int n => toString n
  | .float lit => lit
  | .str s => s
  | .dict _ => "<dict>"

/-- Models Python `str.isnumeric()` restricted to ASCII: true iff the
string is non-empty and every character is a decimal digit.  (Python also
accepts other Unicode numeric characters; the claims use ASCII digits.) -/
def py_isnumeric (s : String) : Bool :=
  !s.data.isEmpty && s.data.all Char.isDigit

/-- Models Python `str.lower()` (ASCII range; the recognized boolean
strings are ASCII). -/
def py_lower (s : String) : String :=
  ⟨s.data.map Char.toLower⟩

/-- src/helpers.py lines 8-16, `to_bool`: truthiness for bool/int/float,
the four recognized strings case-insensitively, and a raised Exception
for everything else.  `float_is_truthy` models `bool(float(lit))`:
false exactly when the literal denotes zero. -/
def float_is_truthy (lit : String) : Bool :=
  !((lit.data.filter (fun c => c.isDigit)).all (fun c => c == Char.ofNat 48))

def to_bool : Native → Except Err Bool
  | .bool b => .ok b
  | .int n => .ok (n != 0)
  | .float lit => .ok (float_is_truthy lit)
  | .str s =>
      if py_lower s = "true" || py_lower s = "1" then .ok true
      else if py_lower s = "false" || py_lower s = "0" then .ok false
      else .error .exception
  | _ => .error .exception

/-- src/converters.py lines 50-59 (duplicated verbatim at lines 74-83):
the handling of an S-tagged string payload.  `jl` models `json.loads`
restricted to the caught exception: `some v` when parsing succeeds with
result `v`, `Option.none` when `json.loads` raises ValueError — in which
case the code logs a warning and keeps the raw string. -/
def decode_s (jl : String → Option Native) (dj : Bool) (v : String) : Native :=
  if v.data.head? == some (Char.ofNat 123) && v.data.getLast? == some (Char.ofNat 125) && !dj then
    match jl v with
    | some parsed => parsed
    | Option.none => .str v
  else .str v

mutual

/-- src/converters.py lines 64-85: the `else` (fetch-all) branch of
`dynamo_to_dict`, iterating the wire row itself.  `row_mapper` is passed
along to the recursive call for nested M values exactly as in the source
(line 73); the recursive call sets `fetch_all_fields=True` and leaves
`dont_json_loads_results` at its default (None, i.e. false).  `tdes`
models `type_deserializer.deserialize`; `acc` is the `result` dict. -/
def decode_all (jl : String → Option Native) (tdes : TagVal → Except Err Native)
    (dj : Bool) (row : WireRow) (row_mapper : Schema) (acc : NRec) :
    Except Err NRec :=
  match row with
  | [] => .ok acc
  | (key, val_dict) :: rest => do
      let acc' ← decode_entries jl tdes dj key val_dict val_dict row_mapper acc
      decode_all jl tdes dj rest row_mapper acc'
termination_by sizeOf row

/-- src/converters.py lines 66-85: the inner loop
`for val_type, val in val_dict.items()` of the fetch-all branch.
`val_dict` is the full tagged value (the `else` branch at line 85
deserializes it whole); `iter` is the part of it still to visit. -/
def decode_entries (jl : String → Option Native) (tdes : TagVal → Except Err Native)
    (dj : Bool) (key : String) (val_dict : TagVal) (iter : TagVal)
    (row_mapper : Schema) (acc : NRec) : Except Err NRec :=
  match iter with
  | [] => .ok acc
  | (val_type, val) :: rest => do
      let v ← decode_field jl tdes val_type (some val) val_dict row_mapper dj
      decode_entries jl tdes dj key val_dict rest row_mapper (dict_insert acc key v)
termination_by sizeOf iter

/-- src/converters.py lines 42-61 and 66-85: the per-tag branch chain the
source writes twice, once for each mode.  `val?` is the payload the
branch chain inspects — `val_dict.get(key_type)` in default mode,
the iterated `val` (always present) in fetch-all mode; the final `else`
deserializes the whole `val_dict` (lines 61 and 85).  Arms where the
source hands a wrong payload to a string operation or to iteration raise
exactly as Python does: '.' in None (or in a non-string) → TypeError;
None.startswith / dict.startswith → AttributeError;
dynamo_to_dict(val, fetch_all_fields=True) with a non-dict val →
AttributeError from val.items().  The M arm recurses with
`fetch_all_fields=True` and `dont_json_loads_results` left at its
default (lines 49 and 73). -/
def decode_field (jl : String → Option Native) (tdes : TagVal → Except Err Native)
    (key_type : String) (val? : Option Payload) (val_dict : TagVal)
    (row_mapper : Schema) (dj : Bool) : Except Err Native :=
  if key_type = "N" then
    match val? with
    | some (.str v) =>
        if v.data.contains (Char.ofNat 46) then python_float v
        else (python_int v).map Native.int
    | _ => .error Err.typeError
  else if key_type = "M" then
    match val? with
    | some (.rcd r) => (decode_all jl tdes false r row_mapper []).map Native.dict
    | _ => .error Err.attributeError
  else if key_type = "S" then
    match val? with
    | some (.str v) => .ok (decode_s jl dj v)
    | _ => .error Err.attributeError
  else
    tdes val_dict
termination_by sizeOf val?

end

/-- src/converters.py lines 38-61: the default (non-fetch-all) branch of
`dynamo_to_dict`, iterating the row mapper.  `iter` is the part of the
row mapper still to visit, `row` is `dynamo_row`, `row_mapper` the full
mapper (threaded to the recursive call for nested M values).  An empty
or absent tagged value is skipped (Python dict truthiness at line 41);
otherwise `val = val_dict.get(key_type)` (line 42) feeds the branch
chain. -/
def decode_mapped (jl : String → Option Native) (tdes : TagVal → Except Err Native)
    (iter : Schema) (row : WireRow) (row_mapper : Schema) (dj : Bool)
    (acc : NRec) : Except Err NRec :=
  match iter with
  | [] => .ok acc
  | (key, key_type) :: rest =>
      match dict_get row key with
      | Option.none => decode_mapped jl tdes rest row row_mapper dj acc
      | some val_dict =>
          if val_dict.isEmpty then decode_mapped jl tdes rest row row_mapper dj acc
          else do
            let v ← decode_field jl tdes key_type (dict_get val_dict key_type) val_dict row_mapper dj
            decode_mapped jl tdes rest row row_mapper dj (dict_insert acc key v)

/-- src/converters.py lines 17-87, `dynamo_to_dict(dynamo_row, row_mapper,
fetch_all_fields=None, dont_json_loads_results=None)`.  The two optional
Python parameters default to None, which the body only tests for
truthiness, so they are embedded as Bool. -/
def dynamo_to_dict (jl : String → Option Native) (tdes : TagVal → Except Err Native)
    (dynamo_row : WireRow) (row_mapper : Schema) (fetch_all_fields : Bool)
    (dont_json_loads_results : Bool) : Except Err NRec :=
  if !fetch_all_fields then
    decode_mapped jl tdes row_mapper dynamo_row row_mapper dont_json_loads_results []
  else
    decode_all jl tdes dont_json_loads_results dynamo_row row_mapper []

/-- src/converters.py lines 115-124: the tagged value that the schema
pass of `dict_to_dynamo` assigns to `result[key_with_prefix]` for a
schema-declared field of type `key_type` holding the non-None value
`val`.  The declared-M branch is the source's `dict_to_dynamo(val)` at
line 122: that call omits the required positional parameter `row_mapper`,
so Python raises TypeError before entering the callee — embedded as an
unconditional error.  `tser` models `type_serializer.serialize`. -/
def mapped_tag (tser : Native → Except Err TagVal) (key_type : String)
    (val : Native) : Except Err TagVal :=
  if key_type = "BOOL" then
    (to_bool val).map (fun b => [("BOOL", .bool b)])
  else if key_type = "N" then
    .ok [("N", .str (python_str val))]
  else if key_type = "S" then
    .ok [("S", .str (python_str val))]
  else if key_type = "M" then
    .error Err.typeError
  else
    tser val

/-- src/converters.py lines 134-143: the tagged value that the unmapped
pass of `dict_to_dynamo` assigns for a field holding `val`, inferred from
the runtime type by the source's isinstance chain: bool first, then
int/float or all-numeric string, then string, then dict — where the dict
branch is again the `dict_to_dynamo(val)` call of line 141 missing its
required `row_mapper` argument (TypeError) — and otherwise the fallback
serializer. -/
def unmapped_tag (tser : Native → Except Err TagVal) (val : Native) :
    Except Err TagVal :=
  match val with
  | .bool b => (to_bool (.bool b)).map (fun bb => [("BOOL", .bool bb)])
  | .int n => .ok [("N", .str (python_str (.int n)))]
  | .float lit => .ok [("N", .str (python_str (.float lit)))]
  | .str s =>
      if py_isnumeric s then .ok [("N", .str (python_str (.str s)))]
      else .ok [("S", .str (python_str (.str s)))]
  | .dict _ => .error Err.typeError
  | .none => tser .none

/-- Models the Python identity test `val is None`. -/
def is_py_none : Native → Bool
  | .none => true
  | _ => false

/-- src/converters.py lines 110-124: the schema pass of `dict_to_dynamo`,
iterating the row mapper.  A field absent from `row_dict` (`.get` returns
None) or holding None is skipped (`if val is not None`); otherwise
`result[add_prefix + key]` receives the declared-tag encoding
`mapped_tag`.  `pfx` is `add_prefix` after the None default is applied;
`acc` is the `result` dict. -/
def encode_mapped (tser : Native → Except Err TagVal) (row_dict : NRec)
    (iter : Schema) (pfx : String) (acc : WireRow) : Except Err WireRow :=
  match iter with
  | [] => .ok acc
  | (key, key_type) :: rest =>
      match dict_get row_dict key with
      | Option.none => encode_mapped tser row_dict rest pfx acc
      | some val =>
          if is_py_none val then encode_mapped tser row_dict rest pfx acc
          else do
            let tv ← mapped_tag tser key_type val
            encode_mapped tser row_dict rest pfx (dict_insert acc (pfx ++ key) tv)

/-- src/converters.py lines 131-143: the unmapped pass of `dict_to_dynamo`,
iterating the keys of `row_dict` left over by the schema pass;
`result[add_prefix + key]` receives the inferred encoding `unmapped_tag`.
`row_dict.get(key)` is total here in Python because the keys come from
`row_dict`; the `.getD .none` mirrors `.get`'s None default. -/
def encode_unmapped (tser : Native → Except Err TagVal) (row_dict : NRec)
    (keys : List String) (pfx : String) (acc : WireRow) : Except Err WireRow :=
  match keys with
  | [] => .ok acc
  | key :: rest => do
      let tv ← unmapped_tag tser ((dict_get row_dict key).getD .none)
      encode_unmapped tser row_dict rest pfx (dict_insert acc (pfx ++ key) tv)

/-- src/converters.py lines 90-146, `dict_to_dynamo(row_dict, row_mapper,
add_prefix=None)`.  Lines 105-106 replace a None prefix by ''; lines
126-128 strip the prefix from the produced keys only when the prefix is
truthy (non-empty); line 131 iterates `set(row_dict.keys()) -
set(result_keys)` — embedded as a filter over `row_dict`'s keys, which
carries the same elements (Python dict keys are unique; only the
unspecified set order differs, and `result` is a dict, keyed not
ordered). -/
def dict_to_dynamo (tser : Native → Except Err TagVal) (row_dict : NRec)
    (row_mapper : Schema) ( add_prefix : Option String) : Except Err WireRow := do
  let pfx := add_prefix.getD ""
  let result ← encode_mapped tser row_dict row_mapper pfx []
  let result_keys :=
    if pfx ≠ "" then result.map (fun kv => kv.1.drop pfx.length)
    else result.map (fun kv => kv.1)
  let todo := (row_dict.map (fun kv => kv.1)).filter (fun k => !(result_keys.contains k))
  encode_unmapped tser row_dict todo pfx result

/-- Model of `json.loads` used to instantiate closed statements on paths
where parsing is never invoked or always fails: every input raises
ValueError. -/
def jl_fail : String → Option Native := fun _ => Option.none

/-- Model of `json.loads` for the spec's own example input: parses the
string {"a": 1} (and only it) to the record {a: 1}; everything else
raises ValueError. -/
def jl_example : String → Option Native :=
  fun s => if s = "\x7b\"a\": 1\x7d" then some (.dict [("a", .int 1)]) else Option.none

/-- Modelled from the spec: the vendor scalar serializer
(`boto3 TypeSerializer.serialize`), an external collaborator that per
§1/§6 covers the types the core does not special-case — here the only
one the claims reach, Python None, which DynamoDB stores as
{'NULL': True}. -/
def tser_model : Native → Except Err TagVal
  | .none => .ok [("NULL", .bool true)]
  | _ => .error Err.typeError

/-- Modelled from the spec: the vendor scalar deserializer
(`boto3 TypeDeserializer.deserialize`), an external collaborator that
per §6 returns the native value for the wire tag of the tagged value it
is handed — here the tags the claims reach. -/
def tdes_model : TagVal → Except Err Native
  | [("NULL", .bool _)] => .ok .none
  | [("BOOL", .bool b)] => .ok (.bool b)
  | [("S", .str s)] => .ok (.str s)
  | _ => .error Err.typeError

/-! Helper lemmas about the dict model and strings. -/

theorem str_empty_append (s : String) : "" ++ s = s := by
  cases s
  rfl

theorem dict_get_insert_self {α : Type} (acc : List (String × α)) (k : String) (v : α) :
    dict_get (dict_insert acc k v) k = some v := by
  induction acc with
  | nil => simp [dict_insert, dict_get]
  | cons hd tl ih =>
      obtain ⟨k', w⟩ := hd
      by_cases h : k' = k <;> simp [dict_insert, dict_get, h, ih]

theorem dict_get_insert_ne {α : Type} (acc : List (String × α)) (k : String) (v : α)
    (k' : String) (h : k' ≠ k) :
    dict_get (dict_insert acc k v) k' = dict_get acc k' := by
  have hkk : ¬(k = k') := fun hh => h hh.symm
  induction acc with
  | nil => simp [dict_insert, dict_get, hkk]
  | cons hd tl ih =>
      obtain ⟨k'', w⟩ := hd
      by_cases h2 : k'' = k
      · subst h2
        simp [dict_insert, dict_get, hkk]
      · simp [dict_insert, dict_get, h2, ih]

theorem mem_dict_insert {α : Type} {kv : String × α} {acc : List (String × α)}
    {k : String} {v : α} (h : kv ∈ dict_insert acc k v) : kv ∈ acc ∨ kv = (k, v) := by
  induction acc with
  | nil => simp [dict_insert] at h; right; exact h
  | cons hd tl ih =>
      obtain ⟨k', w⟩ := hd
      by_cases h2 : k' = k
      · simp [dict_insert, h2] at h
        rcases h with h | h
        · right; simp [h]
        · left; simp [h]
      · simp [dict_insert, h2] at h
        rcases h with h | h
        · left; simp [h]
        · rcases ih h with h3 | h3
          · left; simp [h3]
          · right; exact h3

theorem dict_get_eq_none {α : Type} {l : List (String × α)} {f : String} :
    dict_get l f = Option.none ↔ f ∉ l.map Prod.fst := by
  induction l with
  | nil => simp [dict_get]
  | cons hd tl ih =>
      obtain ⟨k, v⟩ := hd
      by_cases h : k = f
      · subst h; simp [dict_get]
      · have hfk : ¬(f = k) := fun hh => h hh.symm
        simp [dict_get, h, ih, hfk]

/-! Helper lemmas about the encoder passes. -/

theorem encode_mapped_mem (tser : Native → Except Err TagVal) (row_dict : NRec)
    (pfx : String) :
    ∀ (iter : Schema) (acc r : WireRow),
      encode_mapped tser row_dict iter pfx acc = .ok r →
      ∀ kv ∈ r, kv ∈ acc ∨ ∃ key, key ∈ iter.map Prod.fst ∧ kv.1 = pfx ++ key := by
  intro iter
  induction iter with
  | nil =>
      intro acc r h kv hkv
      simp only [encode_mapped, Except.ok.injEq] at h
      subst h
      exact Or.inl hkv
  | cons hd tl ih =>
      intro acc r h kv hkv
      obtain ⟨key, kt⟩ := hd
      simp only [encode_mapped] at h
      split at h
      · rcases ih _ _ h kv hkv with hin | ⟨key2, hk2, he⟩
        · exact Or.inl hin
        · exact Or.inr ⟨key2, by simp [hk2], he⟩
      · rename_i val hget
        split at h
        · rcases ih _ _ h kv hkv with hin | ⟨key2, hk2, he⟩
          · exact Or.inl hin
          · exact Or.inr ⟨key2, by simp [hk2], he⟩
        · rcases hmt : mapped_tag tser kt val with e | tv <;> rw [hmt] at h
          · simp [Bind.bind, Except.bind] at h
          · simp only [Bind.bind, Except.bind] at h
            rcases ih _ _ h kv hkv with hin | ⟨key2, hk2, he⟩
            · rcases mem_dict_insert hin with hin2 | hin2
              · exact Or.inl hin2
              · exact Or.inr ⟨key, by simp, by rw [hin2]⟩
            · exact Or.inr ⟨key2, by simp [hk2], he⟩

theorem encode_unmapped_mem (tser : Native → Except Err TagVal) (row_dict : NRec)
    (pfx : String) :
    ∀ (keys : List String) (acc r : WireRow),
      encode_unmapped tser row_dict keys pfx acc = .ok r →
      ∀ kv ∈ r, kv ∈ acc ∨ ∃ key, key ∈ keys ∧ kv.1 = pfx ++ key := by
  intro keys
  induction keys with
  | nil =>
      intro acc r h kv hkv
      simp only [encode_unmapped, Except.ok.injEq] at h
      subst h
      exact Or.inl hkv
  | cons key rest ih =>
      intro acc r h kv hkv
      simp only [encode_unmapped] at h
      rcases hmt : unmapped_tag tser ((dict_get row_dict key).getD .none) with e | tv <;>
        rw [hmt] at h
      · simp [Bind.bind, Except.bind] at h
      · simp only [Bind.bind, Except.bind] at h
        rcases ih _ _ h kv hkv with hin | ⟨key2, hk2, he⟩
        · rcases mem_dict_insert hin with hin2 | hin2
          · exact Or.inl hin2
          · exact Or.inr ⟨key, by simp, by rw [hin2]⟩
        · exact Or.inr ⟨key2, by simp [hk2], he⟩

/-- With an empty prefix, the schema pass leaves a field that is not
declared in the visited part of the row mapper untouched. -/
theorem encode_mapped_get_of_not_mem (tser : Native → Except Err TagVal)
    (row_dict : NRec) (f : String) :
    ∀ (iter : Schema) (acc r : WireRow),
      f ∉ iter.map Prod.fst →
      encode_mapped tser row_dict iter "" acc = .ok r →
      dict_get r f = dict_get acc f := by
  intro iter
  induction iter with
  | nil =>
      intro acc r _ h
      simp only [encode_mapped, Except.ok.injEq] at h
      subst h; rfl
  | cons hd tl ih =>
      intro acc r hf h
      obtain ⟨key, kt⟩ := hd
      have hfk : f ≠ key := by
        intro hh; exact hf (by simp [hh])
      have hftl : f ∉ tl.map Prod.fst := by
        intro hh; exact hf (by simp [hh])
      simp only [encode_mapped] at h
      split at h
      · exact ih _ _ hftl h
      · rename_i val hget
        split at h
        · exact ih _ _ hftl h
        · rcases hmt : mapped_tag tser kt val with e | tv <;> rw [hmt] at h
          · simp [Bind.bind, Except.bind] at h
          · simp only [Bind.bind, Except.bind] at h
            rw [ih _ _ hftl h]
            rw [str_empty_append key]
            exact dict_get_insert_ne acc key tv f hfk

/-- With an empty prefix, the schema pass leaves a field whose native
value is None untouched, declared or not (`if val is not None`). -/
theorem encode_mapped_get_of_none_val (tser : Native → Except Err TagVal)
    (row_dict : NRec) (f : String) (hv : dict_get row_dict f = some Native.none) :
    ∀ (iter : Schema) (acc r : WireRow),
      encode_mapped tser row_dict iter "" acc = .ok r →
      dict_get r f = dict_get acc f := by
  intro iter
  induction iter with
  | nil =>
      intro acc r h
      simp only [encode_mapped, Except.ok.injEq] at h
      subst h; rfl
  | cons hd tl ih =>
      intro acc r h
      obtain ⟨key, kt⟩ := hd
      simp only [encode_mapped] at h
      split at h
      · exact ih _ _ h
      · rename_i val hget
        split at h
        · exact ih _ _ h
        · rename_i hnone
          have hfk : ¬(key = f) := by
            intro hh
            subst hh
            rw [hv] at hget
            cases hget
            simp [is_py_none] at hnone
          rcases hmt : mapped_tag tser kt val with e | tv <;> rw [hmt] at h
          · simp [Bind.bind, Except.bind] at h
          · simp only [Bind.bind, Except.bind] at h
            rw [ih _ _ h]
            rw [str_empty_append key]
            exact dict_get_insert_ne acc key tv f (fun hh => hfk hh.symm)

/-- With an empty prefix, the unmapped pass gives a visited field `f` the
tagged value that `unmapped_tag` computes for it (re-visits recompute the
same value; other keys do not disturb it). -/
theorem encode_unmapped_get (tser : Native → Except Err TagVal) (row_dict : NRec)
    (f : String) (tv : TagVal)
    (hstep : unmapped_tag tser ((dict_get row_dict f).getD .none) = .ok tv) :
    ∀ (keys : List String) (acc r : WireRow),
      encode_unmapped tser row_dict keys "" acc = .ok r →
      (f ∈ keys ∨ dict_get acc f = some tv) →
      dict_get r f = some tv := by
  intro keys
  induction keys with
  | nil =>
      intro acc r h hmem
      simp only [encode_unmapped, Except.ok.injEq] at h
      subst h
      rcases hmem with hmem | hmem
      · simp at hmem
      · exact hmem
  | cons key rest ih =>
      intro acc r h hmem
      simp only [encode_unmapped] at h
      by_cases hfk : key = f
      · subst hfk
        rw [hstep] at h
        simp only [Bind.bind, Except.bind] at h
        refine ih _ _ h (Or.inr ?_)
        rw [str_empty_append key]
        exact dict_get_insert_self acc key tv
      · rcases hmt : unmapped_tag tser ((dict_get row_dict key).getD .none) with e | tv2 <;>
          rw [hmt] at h
        · simp [Bind.bind, Except.bind] at h
        · simp only [Bind.bind, Except.bind] at h
          refine ih _ _ h ?_
          rcases hmem with hmem | hmem
          · rcases List.mem_cons.mp hmem with hmem2 | hmem2
            · exact absurd hmem2.symm hfk
            · exact Or.inl hmem2
          · refine Or.inr ?_
            rw [str_empty_append key]
            rw [dict_get_insert_ne acc key tv2 f (fun hh => hfk hh.symm)]
            exact hmem

/-! Helper lemmas about the decoder's default (row-mapper driven) mode. -/

/-- The default mode only ever inserts keys that are declared in the
visited part of the row mapper. -/
theorem decode_mapped_mem (jl : String → Option Native) (tdes : TagVal → Except Err Native)
    (row : WireRow) (row_mapper : Schema) (dj : Bool) :
    ∀ (iter : Schema) (acc r : NRec),
      decode_mapped jl tdes iter row row_mapper dj acc = .ok r →
      ∀ kv ∈ r, kv ∈ acc ∨ kv.1 ∈ iter.map Prod.fst := by
  intro iter
  induction iter with
  | nil =>
      intro acc r h kv hkv
      simp only [decode_mapped, Except.ok.injEq] at h
      subst h
      exact Or.inl hkv
  | cons hd tl ih =>
      intro acc r h kv hkv
      obtain ⟨key, kt⟩ := hd
      simp only [decode_mapped] at h
      split at h
      · rcases ih _ _ h kv hkv with hin | hin
        · exact Or.inl hin
        · exact Or.inr (by simp [hin])
      · rename_i val_dict hget
        split at h
        · rcases ih _ _ h kv hkv with hin | hin
          · exact Or.inl hin
          · exact Or.inr (by simp [hin])
        · rcases hdf : decode_field jl tdes kt (dict_get val_dict kt) val_dict row_mapper dj
            with e | v <;> rw [hdf] at h
          · simp [Bind.bind, Except.bind] at h
          · simp only [Bind.bind, Except.bind] at h
            rcases ih _ _ h kv hkv with hin | hin
            · rcases mem_dict_insert hin with hin2 | hin2
              · exact Or.inl hin2
              · exact Or.inr (by simp [hin2])
            · exact Or.inr (by simp [hin])

/-- In the default mode, a visited row-mapper entry `(f, t)` with
`t ∈ {N, M, S}` whose wire value is non-empty but carries no payload
under tag `t` makes the whole decode raise (the payload lookup of
line 42 yields None and the per-tag branch applies a string or dict
operation to it). -/
theorem decode_mapped_mismatch (jl : String → Option Native) (tdes : TagVal → Except Err Native)
    (row : WireRow) (row_mapper : Schema) (dj : Bool) (f t : String) (vd : TagVal)
    (ht : t = "N" ∨ t = "M" ∨ t = "S")
    (hget : dict_get row f = some vd) (hne : vd.isEmpty = false)
    (hmiss : dict_get vd t = Option.none) :
    ∀ (iter : Schema) (acc : NRec), (f, t) ∈ iter →
      ∃ e, decode_mapped jl tdes iter row row_mapper dj acc = .error e := by
  intro iter
  induction iter with
  | nil => intro acc h; simp at h
  | cons hd tl ih =>
      intro acc hmem
      obtain ⟨key, kt⟩ := hd
      rcases List.mem_cons.mp hmem with heq | hmem2
      · injection heq with h1 h2
        subst h1; subst h2
        rcases ht with h3 | h3 | h3 <;> subst h3
        · exact ⟨Err.typeError, by simp [decode_mapped, hget, hne, decode_field, hmiss,
            Bind.bind, Except.bind]⟩
        · exact ⟨Err.attributeError, by simp [decode_mapped, hget, hne, decode_field, hmiss,
            Bind.bind, Except.bind]⟩
        · exact ⟨Err.attributeError, by simp [decode_mapped, hget, hne, decode_field, hmiss,
            Bind.bind, Except.bind]⟩
      · simp only [decode_mapped]
        split
        · exact ih _ hmem2
        · rename_i val_dict hget2
          split
          · exact ih _ hmem2
          · rcases hdf : decode_field jl tdes kt (dict_get val_dict kt) val_dict row_mapper dj
              with e | v
            · exact ⟨e, by simp [hdf, Bind.bind, Except.bind]⟩
            · simp only [hdf, Bind.bind, Except.bind]
              exact ih _ hmem2

/-! Schema irrelevance of the fetch-all mode: throughout the fetch-all
branch the `row_mapper` argument is only threaded to recursive fetch-all
calls (source line 73), never consulted. -/

theorem decode_schema_irrelevant_aux (jl : String → Option Native)
    (tdes : TagVal → Except Err Native) :
    ∀ (n : Nat),
      (∀ (row : WireRow), sizeOf row ≤ n → ∀ (dj : Bool) (m1 m2 : Schema) (acc : NRec),
          decode_all jl tdes dj row m1 acc = decode_all jl tdes dj row m2 acc) ∧
      (∀ (iter : TagVal), sizeOf iter ≤ n →
          ∀ (dj : Bool) (key : String) (vd : TagVal) (m1 m2 : Schema) (acc : NRec),
          decode_entries jl tdes dj key vd iter m1 acc =
            decode_entries jl tdes dj key vd iter m2 acc) ∧
      (∀ (v? : Option Payload), sizeOf v? ≤ n →
          ∀ (kt : String) (vd : TagVal) (dj : Bool) (m1 m2 : Schema),
          decode_field jl tdes kt v? vd m1 dj = decode_field jl tdes kt v? vd m2 dj) := by
  intro n
  induction n with
  | zero =>
      refine ⟨?_, ?_, ?_⟩
      · intro row hrow
        exfalso; cases row <;> simp at hrow
      · intro iter hiter
        exfalso; cases iter <;> simp at hiter
      · intro v? hv
        exfalso; cases v? <;> simp at hv
  | succ n ihn =>
      obtain ⟨ihAll, ihEntries, ihField⟩ := ihn
      refine ⟨?_, ?_, ?_⟩
      · intro row hrow dj m1 m2 acc
        cases row with
        | nil => simp [decode_all]
        | cons hd rest =>
            obtain ⟨key, vd⟩ := hd
            have hvd : sizeOf (vd : TagVal) ≤ n := by
              simp at hrow; omega
            have hrest : sizeOf rest ≤ n := by
              simp at hrow; omega
            simp only [decode_all]
            rw [ihEntries vd hvd dj key vd m1 m2 acc]
            cases hde : decode_entries jl tdes dj key vd vd m2 acc with
            | error e => simp [Bind.bind, Except.bind]
            | ok acc' =>
                simp only [Bind.bind, Except.bind]
                exact ihAll rest hrest dj m1 m2 acc'
      · intro iter hiter dj key vd m1 m2 acc
        cases iter with
        | nil => simp [decode_entries]
        | cons hd rest =>
            obtain ⟨vt, val⟩ := hd
            have hval : sizeOf (some val) ≤ n := by
              simp at hiter ⊢; omega
            have hrest : sizeOf rest ≤ n := by
              simp at hiter; omega
            simp only [decode_entries]
            rw [ihField (some val) hval vt vd dj m1 m2]
            cases hdf : decode_field jl tdes vt (some val) vd m2 dj with
            | error e => simp [Bind.bind, Except.bind]
            | ok v =>
                simp only [Bind.bind, Except.bind]
                exact ihEntries rest hrest dj key vd m1 m2 (dict_insert acc key v)
      · intro v? hv kt vd dj m1 m2
        by_cases hN : kt = "N"
        · simp [decode_field.eq_def, hN]
        · by_cases hM : kt = "M"
          · subst hM
            rcases v? with _ | pl
            · simp [decode_field.eq_def, hN]
            · rcases pl with s | b | r
              · simp [decode_field.eq_def, hN]
              · simp [decode_field.eq_def, hN]
              · have hr : sizeOf r ≤ n := by simp at hv; omega
                simp only [decode_field.eq_def]
                rw [ihAll r hr false m1 m2 []]
          · by_cases hS : kt = "S"
            · simp [decode_field.eq_def, hN, hM, hS]
            · simp [decode_field.eq_def, hN, hM, hS]

/-! The claims. -/

/-- Claim C1, code evidence for the failing input: the round-trip
`decode(encode({f: {g: 1}}, S), S) == {f: {g: 1}}` with `f` declared `M`
and `g` declared `N` cannot hold, because the encoder itself raises
TypeError on this input: the recursive call `dict_to_dynamo(val)` at
line 122 of src/converters.py omits the required positional argument
`row_mapper`, so every schema-declared `M` field aborts the encoding
before any wire record is produced. -/
theorem c1_encoder_raises_on_declared_m_field :
    dict_to_dynamo tser_model [("f", .dict [("g", .int 1)])] [("f", "M"), ("g", "N")]
      Option.none = .error Err.typeError := by
  rfl

/-- Claim C2, counterexample: in default (non-fetch-all) mode the decoder
iterates the row mapper, so a wire field the schema does not declare is
dropped, not "still decoded and appearing in the result":
`decode({g: {S: "x"}}, {})` is `{}`, while the claim requires `{g: "x"}`. -/
theorem c2_default_mode_drops_unknown_field :
    dynamo_to_dict jl_fail tdes_model [("g", [("S", .str "x")])] [] false false =
      .ok [] := by
  rfl

/-- Claim C2, amended: in default mode every field of the result is
declared in the row mapper (each declared field is decoded with its
declared tag and undeclared wire fields are dropped); only in fetch-all
mode are fields unknown to the schema decoded, and there the tag actually
present on the wire value is used, as the second conjunct shows on
`{g: {S: "x"}}` with an empty schema. -/
theorem c2_amended_tag_resolution :
    (∀ (jl : String → Option Native) (tdes : TagVal → Except Err Native)
       (row : WireRow) (row_mapper : Schema) (dj : Bool) (r : NRec),
       dynamo_to_dict jl tdes row row_mapper false dj = .ok r →
       ∀ kv ∈ r, kv.1 ∈ row_mapper.map Prod.fst) ∧
    dynamo_to_dict jl_fail tdes_model [("g", [("S", .str "x")])] [] true false =
      .ok [("g", .str "x")] := by
  constructor
  · intro jl tdes row row_mapper dj r h kv hkv
    have h2 : decode_mapped jl tdes row_mapper row row_mapper dj [] = .ok r := h
    rcases decode_mapped_mem jl tdes row row_mapper dj row_mapper [] r h2 kv hkv with hin | hin
    · simp at hin
    · exact hin
  · simp [dynamo_to_dict, decode_all, decode_entries, decode_field, decode_s, dict_insert,
      jl_fail, Bind.bind, Except.bind, Except.map]

/-- Witness for the amended claim C2: decoding `{f: {N: "7"}}` under the
schema `{f: N}` in default mode yields an entry whose key is declared in
the schema. -/
theorem c2_amended_tag_resolution_witness :
    ("f", Native.int 7).1 ∈ ([("f", "N")] : Schema).map Prod.fst := by
  refine c2_amended_tag_resolution.1 jl_fail tdes_model
    [("f", [("N", Payload.str "7")])] [("f", "N")] false [("f", Native.int 7)] ?_ _ ?_
  · simp [dynamo_to_dict, decode_mapped, decode_field, decode_s, dict_get, dict_insert,
      python_int, digits_to_nat, Bind.bind, Except.bind, Except.map]
  · simp

/-- Claim C3, counterexample: a None-valued native field is not omitted
from the encoder's output: on the claim's own input shape
`encode({f: None, g: 1}, S)` with both fields declared, key `f` is
present — the schema pass skips it, but the unmapped pass then picks it
up and serializes it through the fallback serializer as `{NULL: true}`. -/
theorem c3_none_field_not_omitted :
    dict_to_dynamo tser_model [("f", Native.none), ("g", .int 1)] [("f", "N"), ("g", "N")]
      Option.none =
      .ok [("g", [("N", .str "1")]), ("f", [("NULL", .bool true)])] := by
  rfl

/-- Claim C3, amended: a None-valued native field is never omitted —
declared or not, it is skipped by the schema pass (`if val is not None`)
only to be picked up by the unmapped pass, which emits it through the
fallback serializer (for the vendor serializer, as `{NULL: true}`). -/
theorem c3_amended_none_handling :
    ∀ (tser : Native → Except Err TagVal) (row_dict : NRec) (row_mapper : Schema)
      (f : String) (r : WireRow) (tv : TagVal),
      dict_to_dynamo tser row_dict row_mapper Option.none = .ok r →
      dict_get row_dict f = some Native.none →
      tser Native.none = .ok tv →
      dict_get r f = some tv := by
  intro tser row_dict row_mapper f r tv h hval hser
  simp only [dict_to_dynamo, Option.getD_none] at h
  rcases hm : encode_mapped tser row_dict row_mapper "" [] with e | mid <;> rw [hm] at h
  · simp [Bind.bind, Except.bind] at h
  · simp only [Bind.bind, Except.bind] at h
    rw [if_neg (by simp)] at h
    have hmid : dict_get mid f = Option.none := by
      rw [encode_mapped_get_of_none_val tser row_dict f hval row_mapper [] mid hm]
      rfl
    have hnotin : f ∉ mid.map Prod.fst := dict_get_eq_none.mp hmid
    have hinrow : f ∈ row_dict.map Prod.fst := by
      by_contra hc
      rw [dict_get_eq_none.mpr hc] at hval
      simp at hval
    have hintodo : f ∈ (row_dict.map (fun kv => kv.1)).filter
        (fun k => !((mid.map (fun kv => kv.1)).contains k)) := by
      refine List.mem_filter.mpr ⟨hinrow, ?_⟩
      simpa using hnotin
    have hstep : unmapped_tag tser ((dict_get row_dict f).getD .none) = .ok tv := by
      rw [hval]
      simpa [unmapped_tag] using hser
    exact encode_unmapped_get tser row_dict f tv hstep _ mid r h (Or.inl hintodo)

/-- Witness for the amended claim C3: `encode({f: None}, {f: N})` with the
vendor serializer carries `f` as `{NULL: true}`. -/
theorem c3_amended_none_handling_witness :
    dict_get [("f", [("NULL", Payload.bool true)])] "f" =
      some [("NULL", Payload.bool true)] := by
  exact c3_amended_none_handling tser_model [("f", Native.none)] [("f", "N")] "f"
    [("f", [("NULL", Payload.bool true)])] [("NULL", Payload.bool true)]
    (by rfl) (by rfl) (by rfl)

/-- Claim C4: for an S-resolved field whose payload is JSON-shaped (starts
with the opening brace, ends with the closing brace), when parsing is not
suppressed the decoder returns the parsed object; when `json.loads`
raises, it returns the raw string and never raises itself; when the
suppress flag is set or the string is not JSON-shaped, the raw string
comes back unchanged. -/
theorem c4_s_json_auto_parse :
    ∀ (jl : String → Option Native) (tdes : TagVal → Except Err Native)
      (f v : String) (dj : Bool),
      (∀ parsed, jl v = some parsed →
         v.data.head? = some (Char.ofNat 123) → v.data.getLast? = some (Char.ofNat 125) →
         dj = false →
         dynamo_to_dict jl tdes [(f, [("S", .str v)])] [(f, "S")] false dj =
           .ok [(f, parsed)]) ∧
      (jl v = Option.none →
         dynamo_to_dict jl tdes [(f, [("S", .str v)])] [(f, "S")] false dj =
           .ok [(f, .str v)]) ∧
      ((dj = true ∨ v.data.head? ≠ some (Char.ofNat 123) ∨
          v.data.getLast? ≠ some (Char.ofNat 125)) →
         dynamo_to_dict jl tdes [(f, [("S", .str v)])] [(f, "S")] false dj =
           .ok [(f, .str v)]) := by
  intro jl tdes f v dj
  have hbase : dynamo_to_dict jl tdes [(f, [("S", .str v)])] [(f, "S")] false dj =
      .ok [(f, decode_s jl dj v)] := by
    simp [dynamo_to_dict, decode_mapped, decode_field, dict_get, dict_insert,
      Bind.bind, Except.bind]
  refine ⟨?_, ?_, ?_⟩
  · intro parsed hjl hh hl hdj
    rw [hbase, hdj]
    simp [decode_s, hh, hl, hjl]
  · intro hjl
    rw [hbase]
    by_cases hc : (v.data.head? == some (Char.ofNat 123) &&
        v.data.getLast? == some (Char.ofNat 125) && !dj) = true <;>
      simp [decode_s, hc, hjl]
  · intro hsup
    rw [hbase]
    rcases hsup with hsup | hsup | hsup
    · simp [decode_s, hsup]
    · have hb : (v.data.head? == some (Char.ofNat 123)) = false :=
        beq_eq_false_iff_ne.mpr hsup
      simp [decode_s, hb]
    · have hb : (v.data.getLast? == some (Char.ofNat 125)) = false :=
        beq_eq_false_iff_ne.mpr hsup
      simp [decode_s, hb]

/-- Witness for claim C4, at the spec's own example strings: a parse that
succeeds, a JSON-looking parse failure that degrades to the raw string,
and a suppressed parse. -/
theorem c4_s_json_auto_parse_witness :
    dynamo_to_dict jl_example tdes_model [("f", [("S", .str "\x7b\"a\": 1\x7d")])]
        [("f", "S")] false false = .ok [("f", .dict [("a", .int 1)])] ∧
    dynamo_to_dict jl_fail tdes_model [("f", [("S", .str "\x7bbad json\x7d")])]
        [("f", "S")] false false = .ok [("f", .str "\x7bbad json\x7d")] ∧
    dynamo_to_dict jl_example tdes_model [("f", [("S", .str "\x7b\"a\": 1\x7d")])]
        [("f", "S")] false true = .ok [("f", .str "\x7b\"a\": 1\x7d")] := by
  refine ⟨?_, ?_, ?_⟩
  · exact (c4_s_json_auto_parse jl_example tdes_model "f" _ false).1
      (.dict [("a", .int 1)]) (by rfl) (by rfl) (by rfl) rfl
  · exact (c4_s_json_auto_parse jl_fail tdes_model "f" _ false).2.1 (by rfl)
  · exact (c4_s_json_auto_parse jl_example tdes_model "f" _ true).2.2 (Or.inl rfl)

/-- Claim C5: for a field whose effective tag is N, a payload without a
decimal point is parsed with int() and the decoder returns the integer;
a fractional payload is parsed with float() and the decoder returns a
float. -/
theorem c5_numeric_decoding :
    ∀ (jl : String → Option Native) (tdes : TagVal → Except Err Native)
      (f v : String) (dj : Bool) (i : Int),
      (v.data.contains (Char.ofNat 46) = false →
         python_int v = .ok i →
         dynamo_to_dict jl tdes [(f, [("N", .str v)])] [(f, "N")] false dj =
           .ok [(f, .int i)]) ∧
      (v.data.contains (Char.ofNat 46) = true →
         is_float_lit v = true →
         dynamo_to_dict jl tdes [(f, [("N", .str v)])] [(f, "N")] false dj =
           .ok [(f, .float v)]) := by
  intro jl tdes f v dj i
  constructor
  · intro hdot hpi
    have hd2 : Char.ofNat 46 ∉ v.data := by simpa using hdot
    simp [dynamo_to_dict, decode_mapped, decode_field, dict_get, dict_insert,
      hd2, hpi, Bind.bind, Except.bind, Except.map]
  · intro hdot hfl
    have hd2 : Char.ofNat 46 ∈ v.data := by simpa using hdot
    simp [dynamo_to_dict, decode_mapped, decode_field, dict_get, dict_insert,
      hd2, python_float, hfl, Bind.bind, Except.bind, Except.map]

/-- Witness for claim C5: "123" decodes to the integer 123 and "1.5" to a
float. -/
theorem c5_numeric_decoding_witness :
    dynamo_to_dict jl_fail tdes_model [("f", [("N", .str "123")])] [("f", "N")] false false =
      .ok [("f", .int 123)] ∧
    dynamo_to_dict jl_fail tdes_model [("f", [("N", .str "1.5")])] [("f", "N")] false false =
      .ok [("f", .float "1.5")] := by
  constructor
  · exact (c5_numeric_decoding jl_fail tdes_model "f" "123" false 123).1 (by rfl) (by rfl)
  · exact (c5_numeric_decoding jl_fail tdes_model "f" "1.5" false 0).2 (by rfl) (by rfl)

/-- Claim C6: a field not declared in the schema whose native value is a
string of numeric characters is emitted with tag N and the string itself
as payload; in particular `encode({f: "123"}, {})` equals
`{f: {N: "123"}}`. -/
theorem c6_numeric_string_promotion :
    (∀ (tser : Native → Except Err TagVal) (row_dict : NRec) (row_mapper : Schema)
       (f s : String) (r : WireRow),
       dict_to_dynamo tser row_dict row_mapper Option.none = .ok r →
       f ∉ row_mapper.map Prod.fst →
       dict_get row_dict f = some (.str s) →
       py_isnumeric s = true →
       dict_get r f = some [("N", .str s)]) ∧
    dict_to_dynamo tser_model [("f", .str "123")] [] Option.none =
      .ok [("f", [("N", .str "123")])] := by
  constructor
  · intro tser row_dict row_mapper f s r h hf hval hnum
    simp only [dict_to_dynamo, Option.getD_none] at h
    rcases hm : encode_mapped tser row_dict row_mapper "" [] with e | mid <;> rw [hm] at h
    · simp [Bind.bind, Except.bind] at h
    · simp only [Bind.bind, Except.bind] at h
      rw [if_neg (by simp)] at h
      have hmid : dict_get mid f = Option.none := by
        rw [encode_mapped_get_of_not_mem tser row_dict f row_mapper [] mid hf hm]
        rfl
      have hnotin : f ∉ mid.map Prod.fst := dict_get_eq_none.mp hmid
      have hinrow : f ∈ row_dict.map Prod.fst := by
        by_contra hc
        rw [dict_get_eq_none.mpr hc] at hval
        simp at hval
      have hintodo : f ∈ (row_dict.map (fun kv => kv.1)).filter
          (fun k => !((mid.map (fun kv => kv.1)).contains k)) := by
        refine List.mem_filter.mpr ⟨hinrow, ?_⟩
        simpa using hnotin
      have hstep : unmapped_tag tser ((dict_get row_dict f).getD .none) =
          .ok [("N", .str s)] := by
        rw [hval]
        simp [unmapped_tag, hnum, python_str]
      exact encode_unmapped_get tser row_dict f _ hstep _ mid r h (Or.inl hintodo)
  · rfl

/-- Witness for claim C6: `encode({g: "42"}, {})` carries `g` as
`{N: "42"}`. -/
theorem c6_numeric_string_promotion_witness :
    dict_get [("g", [("N", Payload.str "42")])] "g" = some [("N", Payload.str "42")] := by
  exact c6_numeric_string_promotion.1 tser_model [("g", Native.str "42")] [] "g" "42"
    [("g", [("N", Payload.str "42")])] (by rfl) (by simp) (by rfl) (by rfl)

/-- Claim C7: with a prefix, every key of the encoder's output starts
with the prefix, in both passes; and because the set-difference that
selects unmapped fields strips the prefix first, a declared field is not
re-encoded by the unmapped pass (third conjunct: the declared-S encoding
of a numeric string survives, which re-encoding would turn into N).  The
second conjunct is the spec's own example
`encode({f: 1}, {f: N}, "old_") = {old_f: {N: "1"}}`. -/
theorem c7_key_prefixing :
    (∀ (tser : Native → Except Err TagVal) (row_dict : NRec) (row_mapper : Schema)
       (p : String) (r : WireRow),
       dict_to_dynamo tser row_dict row_mapper (some p) = .ok r →
       ∀ kv ∈ r, ∃ t, kv.1 = p ++ t) ∧
    dict_to_dynamo tser_model [("f", .int 1)] [("f", "N")] (some "old_") =
      .ok [("old_f", [("N", .str "1")])] ∧
    dict_to_dynamo tser_model [("f", .str "123")] [("f", "S")] (some "p_") =
      .ok [("p_f", [("S", .str "123")])] := by
  refine ⟨?_, by rfl, by rfl⟩
  intro tser row_dict row_mapper p r h kv hkv
  simp only [dict_to_dynamo, Option.getD_some] at h
  rcases hm : encode_mapped tser row_dict row_mapper p [] with e | mid <;> rw [hm] at h
  · simp [Bind.bind, Except.bind] at h
  · simp only [Bind.bind, Except.bind] at h
    rcases encode_unmapped_mem tser row_dict p _ mid r h kv hkv with hin | ⟨key, _, he⟩
    · rcases encode_mapped_mem tser row_dict p row_mapper [] mid hm kv hin with h0 | ⟨key, _, he⟩
      · simp at h0
      · exact ⟨key, he⟩
    · exact ⟨key, he⟩

/-- Witness for claim C7: the key `old_f` produced for the declared field
`f` under prefix `old_` starts with the prefix. -/
theorem c7_key_prefixing_witness :
    ∃ t, ("old_f", [("N", Payload.str "1")]).1 = "old_" ++ t := by
  exact c7_key_prefixing.1 tser_model [("f", Native.int 1)] [("f", "N")] "old_"
    [("old_f", [("N", Payload.str "1")])] (by rfl) _ (by simp)

/-- Claim C8: `to_bool` returns True for the strings "true" and "1" and
False for "false" and "0" case-insensitively, returns the truthiness of
booleans and numbers (identity on bool, nonzero test on int and float),
and raises for every other value — any unrecognized string, None, and
records — never silently defaulting. -/
theorem c8_to_bool_contract :
    (∀ s : String, py_lower s = "true" ∨ py_lower s = "1" →
       to_bool (.str s) = .ok true) ∧
    (∀ s : String, py_lower s = "false" ∨ py_lower s = "0" →
       to_bool (.str s) = .ok false) ∧
    (∀ b : Bool, to_bool (.bool b) = .ok b) ∧
    (∀ n : Int, to_bool (.int n) = .ok (n != 0)) ∧
    (∀ lit : String, to_bool (.float lit) = .ok (float_is_truthy lit)) ∧
    (∀ s : String, py_lower s ≠ "true" → py_lower s ≠ "1" → py_lower s ≠ "false" →
       py_lower s ≠ "0" → to_bool (.str s) = .error Err.exception) ∧
    to_bool Native.none = .error Err.exception ∧
    (∀ d, to_bool (.dict d) = .error Err.exception) := by
  refine ⟨?_, ?_, ?_, ?_, ?_, ?_, by rfl, ?_⟩
  · intro s h
    rcases h with h | h <;> simp [to_bool, h]
  · intro s h
    rcases h with h | h <;> simp [to_bool, h]
  · intro b; rfl
  · intro n; rfl
  · intro lit; rfl
  · intro s h1 h2 h3 h4
    simp [to_bool, h1, h2, h3, h4]
  · intro d; rfl

/-- Witness for claim C8: a capitalized true-string, the zero string, and
an unrecognized string. -/
theorem c8_to_bool_contract_witness :
    to_bool (.str "TRUE") = .ok true ∧ to_bool (.str "0") = .ok false ∧
    to_bool (.str "yes") = .error Err.exception := by
  refine ⟨?_, ?_, ?_⟩
  · exact c8_to_bool_contract.1 "TRUE" (Or.inl (by rfl))
  · exact c8_to_bool_contract.2.1 "0" (Or.inr (by rfl))
  · exact c8_to_bool_contract.2.2.2.2.2.1 "yes"
      (by decide) (by decide) (by decide) (by decide)

/-- Claim C9: in fetch-all mode the decoder's result does not depend on
the schema at all — for any two row mappers the results coincide — and
since every recursion into a nested M value re-enters fetch-all mode,
the schema is never consulted below the top level either. -/
theorem c9_fetch_all_schema_irrelevant :
    ∀ (jl : String → Option Native) (tdes : TagVal → Except Err Native)
      (row : WireRow) (m1 m2 : Schema) (dj : Bool),
      dynamo_to_dict jl tdes row m1 true dj = dynamo_to_dict jl tdes row m2 true dj := by
  intro jl tdes row m1 m2 dj
  have h := (decode_schema_irrelevant_aux jl tdes (sizeOf row)).1 row (le_refl _) dj m1 m2 []
  simpa [dynamo_to_dict] using h

/-- Claim C10, counterexample: a declared field whose wire tag differs
from the declared one does not always make decoding raise: with `f`
declared `BOOL` but carrying `{NULL: true}` (a non-empty tagged value of
a different tag), the `else` branch hands the whole tagged value to the
fallback deserializer, which decodes it by its wire tag, and decoding
succeeds with `{f: None}`. -/
theorem c10_tag_mismatch_can_succeed :
    dynamo_to_dict jl_fail tdes_model [("f", [("NULL", .bool true)])] [("f", "BOOL")]
      false false = .ok [("f", Native.none)] := by
  simp [dynamo_to_dict, decode_mapped, decode_field, dict_get, dict_insert, tdes_model,
    Bind.bind, Except.bind, Except.map]

/-- Claim C10, amended: in default mode, when a schema-declared field's
declared tag is one of N, M, S and its wire value is a non-empty tagged
value carrying no payload under that tag, the payload lookup yields None
and decoding raises; for any other declared tag the whole tagged value is
delegated to the fallback deserializer (which resolves it by its wire
tag), so no tag agreement is needed there. -/
theorem c10_amended_mismatch_raises :
    ∀ (jl : String → Option Native) (tdes : TagVal → Except Err Native)
      (row : WireRow) (row_mapper : Schema) (dj : Bool) (f t : String) (vd : TagVal),
      (f, t) ∈ row_mapper →
      (t = "N" ∨ t = "M" ∨ t = "S") →
      dict_get row f = some vd →
      vd.isEmpty = false →
      dict_get vd t = Option.none →
      ∃ e, dynamo_to_dict jl tdes row row_mapper false dj = .error e := by
  intro jl tdes row row_mapper dj f t vd hmem ht hget hne hmiss
  exact decode_mapped_mismatch jl tdes row row_mapper dj f t vd ht hget hne hmiss
    row_mapper [] hmem

/-- Witness for the amended claim C10: `f` declared `N` but carrying
`{S: "12"}` raises. -/
theorem c10_amended_mismatch_raises_witness :
    ∃ e, dynamo_to_dict jl_fail tdes_model [("f", [("S", Payload.str "12")])] [("f", "N")]
      false false = .error e := by
  exact c10_amended_mismatch_raises jl_fail tdes_model [("f", [("S", Payload.str "12")])]
    [("f", "N")] false "f" "N" [("S", Payload.str "12")]
    (by simp) (Or.inl rfl) (by rfl) (by rfl) (by rfl)

end SoswDynamo
